import Mathlib

/-!
Verification of `jwst.associations` (DMS association generation) against its
specification.  The Python sources embedded here are
`jwst/associations/lib/dms_base.py` and `jwst/associations/main.py`.
Pool items are modelled as ordered string-to-string mappings (association
lists); fallible lookups (Python `KeyError` / `LookupError`) are modelled
with `Option`.
-/

namespace JwstAssociations

/-- A pool item / member: ordered mapping of attribute name to string value
(first binding wins on lookup, as for a Python dict built left to right). -/
abbrev Item := List (String × String)

/-- Source `_EMPTY` from `dms_base.py`: sentinel strings meaning "no value".
The Python tuple also holds `None`; pool-item values are strings (spec section 3),
so only the string members can ever compare equal to a value. -/
def EMPTY_VALUES : List String :=
  ["", "NULL", "Null", "null", "--", "N", "n", "F", "f", "N/A", "n/a"]

/-- Modelled from the spec: `getattr_from_list` from
`jwst/associations/lib/utilities.py` is not under `src/`.  Spec section 3:
the Attribute Resolver "looks up a value for an item by trying an ordered
list of candidate attribute names, treating a configurable set of sentinel
strings as absent".  Returns the first `(attribute, value)` whose value is
present and not a sentinel; `none` models the `KeyError` raised when no
attribute yields a usable value. -/
def getattr_from_list (item : Item) (attributes : List String)
    (invalid_values : List String) : Option (String × String) :=
  match attributes with
  | [] => none
  | a :: rest =>
    match item.lookup a with
    | some v =>
      if invalid_values.contains v then getattr_from_list item rest invalid_values
      else some (a, v)
    | none => getattr_from_list item rest invalid_values

/-- Source `DMSBaseMixin.item_getattr`: resolve any of `attributes` on `item`,
with the DMS invalid-value set (`INVALID_VALUES` is the `_EMPTY` sentinel set
per spec section 3). -/
def item_getattr (item : Item) (attributes : List String) : Option (String × String) :=
  getattr_from_list item attributes EMPTY_VALUES

/-- Relevant state of a source `AttrConstraint`: its matched `value` and the
`found_values` accumulated across evaluations. -/
structure AttrConstraint where
  value : Option String
  found_values : List String
deriving DecidableEq, Repr

/-- The constraint tree as consulted by the mixin: named constraints looked up
by name (`self.constraints[name]`, `KeyError` when absent). -/
abbrev Constraints := List (String × AttrConstraint)

/-- Source `TSO_EXP_TYPES`: exposures that are always TSO. -/
def TSO_EXP_TYPES : List String :=
  ["nrc_tsimage", "nrc_tsgrism", "nrs_brightobj"]

/-- Source `DMSBaseMixin.is_item_tso`.  `none` models the `KeyError` escaping
from the unguarded `item['pntgtype']` lookup.  The three guarded indicators
(`is_tso` constraint, `tsovisit`, `exp_type`) have their `KeyError` handlers
modelled by the `Option` matches falling back to the running value. -/
def is_item_tso (constraints : Constraints) (item : Item)
    (other_exp_types : Option (List String)) : Option Bool :=
  match item.lookup "pntgtype" with
  | none => none
  | some pntgtype =>
    if pntgtype ≠ "science" then
      some false
    else
      let all_exp_types := TSO_EXP_TYPES ++ other_exp_types.getD []
      let is_tso : Bool :=
        match constraints.lookup "is_tso" with
        | some c => c.value == some "t"
        | none => false
      let is_tso : Bool := is_tso ||
        (match item_getattr item ["tsovisit"] with
         | some av => av.2 == "t"
         | none => false)
      let is_tso : Bool := is_tso ||
        (match item_getattr item ["exp_type"] with
         | some av => all_exp_types.contains av.2
         | none => false)
      some is_tso

/-- Source `_DEGRADED_STATUS_OK` from `dms_base.py`. -/
def DEGRADED_STATUS_OK : String :=
  "No known degraded exposures in association."

/-- Source `_DEGRADED_STATUS_NOTOK` from `dms_base.py`. -/
def DEGRADED_STATUS_NOTOK : String :=
  "One or more members have an error associated with them.\nDetails can be found in the member.exposerr attribute."

/-- A product: named, with an ordered member list (source `new_product`). -/
structure Product where
  name : String
  members : List Item
deriving DecidableEq, Repr

/-- Source `DMSBaseMixin.update_degraded_status`: when the status is OK, scan
every member of every product; a member whose `exposerr` is present and not a
sentinel flips the status to NOT-OK.  The source's `break` only leaves the
inner member loop, but by then the status is already NOT-OK, so the extra
outer iterations change nothing; the scan is therefore an `any`. -/
def update_degraded_status (status : String) (products : List Product) : String :=
  if status = DEGRADED_STATUS_OK then
    if products.any (fun product =>
        product.members.any (fun member =>
          match member.lookup "exposerr" with
          | some exposerr => !(EMPTY_VALUES.contains exposerr)
          | none => false)) then
      DEGRADED_STATUS_NOTOK
    else status
  else status

/-- Source `EXPTYPE_MAP`: exposure `EXP_TYPE` to association exposure type. -/
def EXPTYPE_MAP : List (String × String) :=
  [("mir_darkall", "dark"),
   ("mir_darkimg", "dark"),
   ("mir_darkmrs", "dark"),
   ("mir_flatimage", "flat"),
   ("mir_flatmrs", "flat"),
   ("mir_flatimage-ext", "flat"),
   ("mir_flatmrs-ext", "flat"),
   ("mir_tacq", "target_acquisition"),
   ("nis_dark", "dark"),
   ("nis_focus", "engineering"),
   ("nis_lamp", "engineering"),
   ("nis_tacq", "target_acquisition"),
   ("nis_taconfirm", "target_acquisition"),
   ("nrc_dark", "dark"),
   ("nrc_flat", "flat"),
   ("nrc_focus", "engineering"),
   ("nrc_led", "engineering"),
   ("nrc_tacq", "target_acquisition"),
   ("nrc_taconfirm", "target_acquisition"),
   ("nrs_autoflat", "autoflat"),
   ("nrs_autowave", "autowave"),
   ("nrs_confirm", "target_acquisition"),
   ("nrs_dark", "dark"),
   ("nrs_focus", "engineering"),
   ("nrs_image", "engineering"),
   ("nrs_lamp", "engineering"),
   ("nrs_msata", "target_acquisition"),
   ("nrs_tacq", "target_acquisition"),
   ("nrs_taconfirm", "target_acquisition"),
   ("nrs_taslit", "target_acquisition"),
   ("nrs_wata", "target_acquisition")]

/-- Source `SPECIAL_EXPTYPES`, in dict insertion order. -/
def SPECIAL_EXPTYPES : List (String × List String) :=
  [("psf", ["is_psf"]),
   ("imprint", ["is_imprt"]),
   ("background", ["bkgdtarg"])]

/-- Source `DMSBaseMixin.get_exposure_type`.  `none` models the raised
`LookupError` (missing `exp_type`, or unmapped type with `default=None`).
When the mapped type is `"science"`, the first special type whose source
attribute resolves to a non-sentinel value overrides it. -/
def get_exposure_type (item : Item) (default : Option String) : Option String :=
  match item.lookup "exp_type" with
  | none => none
  | some exp_type =>
    match (EXPTYPE_MAP.lookup exp_type).or default with
    | none => none
    | some result =>
      if result = "science" then
        match SPECIAL_EXPTYPES.find? (fun sp => (item_getattr item sp.2).isSome) with
        | some sp => some sp.1
        | none => some result
      else some result

/-- Source `format_list`: join a list with `-` per DMS naming specs. -/
def format_list (alist : List String) : String :=
  String.intercalate "-" alist

/-- ASCII lowercase of one character (the values handled by the DMS naming
code are ASCII identifiers, where Python `str.lower` acts exactly so). -/
def charLower (c : Char) : Char :=
  if 65 ≤ c.toNat ∧ c.toNat ≤ 90 then Char.ofNat (c.toNat + 32) else c

/-- ASCII lowercase of a string, modelling Python `str.lower` on the ASCII
values at hand. -/
def strLower (s : String) : String :=
  String.mk (s.data.map charLower)

/-- Code-point comparison of strings as Python `<=` does, as a lexicographic
comparison of the character lists. -/
def strLe (a b : String) : Bool :=
  lexLe a.data b.data
where
  lexLe : List Char → List Char → Bool
    | [], _ => true
    | _ :: _, [] => false
    | x :: xs, y :: ys =>
      if x.toNat < y.toNat then true
      else if y.toNat < x.toNat then false
      else lexLe xs ys

/-- Insert a string into a list sorted case-insensitively, after any element
with an equal or smaller lowercased key (the stable placement Python's
`list.sort(key=str.lower)` gives to earlier elements). -/
def insertByLower (x : String) : List String → List String
  | [] => [x]
  | y :: ys => if strLe (strLower x) (strLower y) then x :: y :: ys else y :: insertByLower x ys

/-- Stable case-insensitive ascending sort, modelling Python
`values.sort(key=str.lower)`. -/
def sortByLower (l : List String) : List String :=
  l.foldr insertByLower []

/-- Source `DMSBaseMixin._get_opt_element`: for each of `opt_elem`,
`opt_elem2`, `opt_elem3` that names a constraint, sort its found values
case-insensitively and join with `-`; keep the non-sentinel results, sort
them case-insensitively, join with `-`; an empty result becomes `"clear"`. -/
def get_opt_element (constraints : Constraints) : String :=
  let opt_elems := ["opt_elem", "opt_elem2", "opt_elem3"].foldl
    (fun acc name =>
      match constraints.lookup name with
      | none => acc
      | some c =>
        let value := format_list (sortByLower c.found_values)
        if EMPTY_VALUES.contains value then acc else acc ++ [value])
    []
  let opt_elem := String.intercalate "-" (sortByLower opt_elems)
  if opt_elem = "" then "clear" else opt_elem

/-- An association as seen by `main.filter_discovered_only`: the name of the
registry that produced it, and the content its structural equality contract
compares (products/members; rule-set-specific metadata such as the registry
name itself is not part of `==`, spec section 4.4). -/
structure Asn (α : Type) where
  registry : String
  content : α
deriving DecidableEq, Repr

/-- Source `main.filter_discovered_only`.  The partition dict
`{candidate_ruleset: [], discover_ruleset: []}` indexes buckets by name, so
each bucket reads back as the sublist of associations carrying that registry
name (also when both names coincide and share one bucket); an association
filed under any other name raises `KeyError`, modelled by `none`.  Each
candidate pass rebinds the discovered list to those not equal to that
candidate; `keep_candidates` appends the candidate list. -/
def filter_discovered_only {α : Type} [DecidableEq α] (associations : List (Asn α))
    (discover_ruleset candidate_ruleset : String) (keep_candidates : Bool) :
    Option (List (Asn α)) :=
  if associations.all (fun asn =>
      asn.registry == candidate_ruleset || asn.registry == discover_ruleset) then
    let candidate_list := associations.filter (fun asn => asn.registry == candidate_ruleset)
    let discover_list := associations.filter (fun asn => asn.registry == discover_ruleset)
    let discover_list := candidate_list.foldl
      (fun dl candidate => dl.filter (fun discover => discover.content != candidate.content))
      discover_list
    some (if keep_candidates then discover_list ++ candidate_list else discover_list)
  else none

/-- The constraint dict built by `main.constrain_on_candidates`. -/
structure CandidateConstraint where
  value : Option String
  inputs : List String
  force_unique : Bool
  is_acid : Bool
  evaluate : Bool
deriving DecidableEq, Repr

/-- Source `main.constrain_on_candidates`: a non-empty id list becomes the
disjunctive pattern `.+(id1|id2|...).+`; `None` or an empty list leaves the
value `None` (match any candidate). -/
def constrain_on_candidates (candidates : Option (List String)) : CandidateConstraint :=
  let values : Option String :=
    match candidates with
    | some cs =>
      if cs.length ≠ 0 then some (".+(" ++ String.intercalate "|" cs ++ ").+")
      else none
    | none => none
  { value := values
    inputs := ["asn_candidate"]
    force_unique := true
    is_acid := true
    evaluate := true }

/-- One event against a rule class's sequence counter: `DMSBaseMixin.create`
returning an association (`createOk`, which draws `next(asn._sequence)`),
`create` returning `None` (`createFail`, counter untouched), or an explicit
`reset_sequence` call. -/
inductive SeqOp
  | createOk
  | createFail
  | reset
deriving DecidableEq, Repr

/-- Modelled from the spec: the `Counter` class
(`jwst/associations/lib/counter.py`) is not under `src/`.  Spec section 3:
`sequence (int, 1-based, monotonically assigned per rule class)`, resettable
only by explicit reset; so `next` on a counter started at 1 yields 1, 2, ...
and `reset_sequence` installs a fresh `Counter(start=1)`.  The state is the
counter value paired with the sequence numbers assigned so far. -/
def seqStep : Nat × List Nat → SeqOp → Nat × List Nat
  | (counter, assigned), SeqOp.createOk => (counter + 1, assigned ++ [counter])
  | (counter, assigned), SeqOp.createFail => (counter, assigned)
  | (_, assigned), SeqOp.reset => (1, assigned)

/-- Run a trace of create/reset events from a given counter value, collecting
the sequence numbers assigned to successfully created associations. -/
def runSeq (counter : Nat) (ops : List SeqOp) : Nat × List Nat :=
  ops.foldl seqStep (counter, [])

/-- Spec-side predicate: a member whose `exposerr` attribute is absent or a
sentinel value (the condition under which the claim says the degraded status
stays OK). -/
def memberClean (member : Item) : Bool :=
  match member.lookup "exposerr" with
  | some exposerr => EMPTY_VALUES.contains exposerr
  | none => true

/-- Spec-side predicate: every member of every product is clean. -/
def productsClean (products : List Product) : Bool :=
  products.all (fun product => product.members.all memberClean)

/-- Spec-side rendering of the optical-element fragment, following the
claim's words: for each of the three optical-element constraint names that
exists, sort its found values case-insensitively and join with `-`; collect
the non-sentinel results, sort them case-insensitively, join with `-`; an
empty result is the literal `"clear"`. -/
def opt_element_from_spec (constraints : Constraints) : String :=
  let results := ["opt_elem", "opt_elem2", "opt_elem3"].filterMap
    (fun name => (constraints.lookup name).bind (fun c =>
      let v := format_list (sortByLower c.found_values)
      if EMPTY_VALUES.contains v then none else some v))
  let joined := String.intercalate "-" (sortByLower results)
  if joined = "" then "clear" else joined

/-- Spec-side rendering of the science-type override, following the claim's
words: the first of psf, imprint, background whose gating source attribute
(`is_psf`, `is_imprt`, `bkgdtarg` respectively) resolves to a non-sentinel
value overrides the type; otherwise it stays `"science"`. -/
def science_special_override (item : Item) : String :=
  if (item_getattr item ["is_psf"]).isSome then "psf"
  else if (item_getattr item ["is_imprt"]).isSome then "imprint"
  else if (item_getattr item ["bkgdtarg"]).isSome then "background"
  else "science"

end JwstAssociations

namespace JwstAssociations

/-- C1: an item whose `pntgtype` attribute is present and differs from
`"science"` makes `is_item_tso` return false, whatever the other item
attributes, the association's `is_tso` constraint and the
`other_exp_types` list are. -/
theorem is_item_tso_nonscience_false
    (constraints : Constraints) (item : Item) (other_exp_types : Option (List String))
    (pntgtype : String)
    (hp : item.lookup "pntgtype" = some pntgtype) (hne : pntgtype ≠ "science") :
    is_item_tso constraints item other_exp_types = some false := by
  unfold is_item_tso
  rw [hp]
  simp [hne]

/-- Witness for C1: a target-acquisition pointing with every other TSO
indicator set still comes out as not TSO. -/
theorem is_item_tso_nonscience_false_witness :
    is_item_tso [("is_tso", ⟨some "t", []⟩)]
      [("pntgtype", "target_acquisition"), ("tsovisit", "t"), ("exp_type", "nrc_tsimage")]
      (some ["mir_lyot"]) = some false :=
  is_item_tso_nonscience_false _ _ _ "target_acquisition" (by decide) (by decide)

/-- C9: `is_item_tso` raises `KeyError` (modelled as `none`) exactly when the
item has no `pntgtype` attribute; every other consulted attribute may be
absent without an escaping error. -/
theorem is_item_tso_missing_pntgtype_keyerror :
    ∀ (constraints : Constraints) (item : Item) (other_exp_types : Option (List String)),
      is_item_tso constraints item other_exp_types = none
        ↔ item.lookup "pntgtype" = none := by
  intro constraints item other_exp_types
  unfold is_item_tso
  cases h : item.lookup "pntgtype" with
  | none => simp
  | some pntgtype =>
    by_cases hs : pntgtype = "science" <;> simp [hs]

/-- Negated `any` against a negated predicate is `all`. -/
theorem any_not_eq_not_all {α : Type} (l : List α) (p : α → Bool) :
    l.any (fun x => !p x) = !l.all p := by
  rw [List.all_eq_not_any_not, Bool.not_not]

/-- The member test inside `update_degraded_status` is the negation of the
spec-side cleanliness predicate. -/
theorem member_bad_eq_not_clean (member : Item) :
    (match member.lookup "exposerr" with
     | some exposerr => !(EMPTY_VALUES.contains exposerr)
     | none => false) = !memberClean member := by
  unfold memberClean
  cases member.lookup "exposerr" <;> simp

/-- The whole-association scan of `update_degraded_status` finds a bad member
exactly when not every member is clean. -/
theorem any_bad_eq_not_productsClean (products : List Product) :
    (products.any (fun product =>
      product.members.any (fun member =>
        match member.lookup "exposerr" with
        | some exposerr => !(EMPTY_VALUES.contains exposerr)
        | none => false))) = !productsClean products := by
  unfold productsClean
  calc products.any (fun product =>
        product.members.any (fun member =>
          match member.lookup "exposerr" with
          | some exposerr => !(EMPTY_VALUES.contains exposerr)
          | none => false))
      = products.any (fun product => !(product.members.all memberClean)) := by
        congr 1
        funext product
        calc product.members.any (fun member =>
              match member.lookup "exposerr" with
              | some exposerr => !(EMPTY_VALUES.contains exposerr)
              | none => false)
            = product.members.any (fun member => !memberClean member) := by
              congr 1
              funext member
              exact member_bad_eq_not_clean member
          _ = !(product.members.all memberClean) :=
              any_not_eq_not_all product.members memberClean
    _ = !productsClean products :=
        any_not_eq_not_all products (fun product => product.members.all memberClean)

/-- One OK-status update flips to NOT-OK exactly when some member is bad. -/
theorem update_degraded_status_ok_eq (products : List Product) :
    update_degraded_status DEGRADED_STATUS_OK products
      = if productsClean products then DEGRADED_STATUS_OK else DEGRADED_STATUS_NOTOK := by
  unfold update_degraded_status
  rw [if_pos rfl, any_bad_eq_not_productsClean]
  cases productsClean products <;> simp

/-- NOT-OK is absorbing for any sequence of further updates. -/
theorem foldl_update_degraded_status_notok (pss : List (List Product)) :
    List.foldl update_degraded_status DEGRADED_STATUS_NOTOK pss = DEGRADED_STATUS_NOTOK := by
  induction pss with
  | nil => rfl
  | cons ps pss ih =>
    rw [List.foldl_cons, update_degraded_status, if_neg (by decide), ih]

/-- C2: over any sequence of `update_degraded_status` calls (each seeing the
association's product list at that moment), the status starting from OK stays
OK exactly as long as every member of every product scanned has an absent or
sentinel `exposerr`, becomes NOT-OK as soon as any scan sees a non-sentinel
`exposerr`, and from NOT-OK no update ever returns it to OK. -/
theorem update_degraded_status_monotonic :
    (∀ pss : List (List Product),
      List.foldl update_degraded_status DEGRADED_STATUS_OK pss
        = if pss.all productsClean then DEGRADED_STATUS_OK else DEGRADED_STATUS_NOTOK)
    ∧ ∀ products : List Product,
        update_degraded_status DEGRADED_STATUS_NOTOK products = DEGRADED_STATUS_NOTOK := by
  constructor
  · intro pss
    induction pss with
    | nil => rfl
    | cons ps pss ih =>
      rw [List.foldl_cons, update_degraded_status_ok_eq]
      by_cases h : productsClean ps
      · rw [if_pos h, ih, List.all_cons, h]
        simp
      · rw [if_neg h, foldl_update_degraded_status_notok, List.all_cons,
          Bool.eq_false_iff.mpr h]
        simp
  · intro products
    rw [update_degraded_status, if_neg (by decide)]

/-- C7: the `asn_candidate` global constraint has match value
`.+(o001|o002).+` for the ids `["o001", "o002"]`, in general
`.+(` ++ ids joined with `|` ++ `).+` for a non-empty id list, and `None`
(match any candidate) when no ids are given. -/
theorem constrain_on_candidates_value :
    (constrain_on_candidates (some ["o001", "o002"])).value = some ".+(o001|o002).+"
    ∧ (constrain_on_candidates none).value = none
    ∧ (constrain_on_candidates (some [])).value = none
    ∧ ∀ (cid : String) (cids : List String),
        (constrain_on_candidates (some (cid :: cids))).value
          = some (".+(" ++ String.intercalate "|" (cid :: cids) ++ ").+") := by
  refine ⟨by decide, rfl, rfl, ?_⟩
  intro cid cids
  simp [constrain_on_candidates]

/-- A left fold that appends the defined results of an element-wise partial
function collects exactly its `filterMap`. -/
theorem foldl_collect_eq_filterMap (g : String → Option String)
    (B : List String → String → List String)
    (hB : ∀ acc name, B acc name =
      match g name with
      | none => acc
      | some v => acc ++ [v]) :
    ∀ (names : List String) (acc : List String),
      names.foldl B acc = acc ++ names.filterMap g := by
  intro names
  induction names with
  | nil => intro acc; simp
  | cons n ns ih =>
    intro acc
    rw [List.foldl_cons, hB, List.filterMap_cons]
    cases g n with
    | none => exact ih acc
    | some v =>
      rw [ih]
      simp

/-- The source optical-element fragment computation agrees with the spec-side
rendering on every constraint table. -/
theorem get_opt_element_eq_from_spec (constraints : Constraints) :
    get_opt_element constraints = opt_element_from_spec constraints := by
  unfold get_opt_element opt_element_from_spec
  rw [foldl_collect_eq_filterMap
    (fun name => (constraints.lookup name).bind (fun c =>
      let v := format_list (sortByLower c.found_values)
      if EMPTY_VALUES.contains v then none else some v))
    (fun acc name =>
      match constraints.lookup name with
      | none => acc
      | some c =>
        let value := format_list (sortByLower c.found_values)
        if EMPTY_VALUES.contains value then acc else acc ++ [value])
    ?hB ["opt_elem", "opt_elem2", "opt_elem3"] []]
  · rw [List.nil_append]
  case hB =>
    intro acc name
    cases h : constraints.lookup name with
    | none => simp [h]
    | some c =>
      simp only [h, Option.bind]
      cases hv : EMPTY_VALUES.contains (format_list (sortByLower c.found_values)) <;>
        simp [hv]

/-- C5 counterexample: with found values `["F770W", "f560w"]` for `opt_elem`,
the fragment is not the lowercased `"f560w-f770w"` the claim states (it keeps
the found values' own casing). -/
theorem get_opt_element_lowercase_join_counterexample :
    get_opt_element [("opt_elem", AttrConstraint.mk none ["F770W", "f560w"])]
      ≠ "f560w-f770w" := by
  decide

/-- C5 (amended): the fragment takes, for each of `opt_elem`, `opt_elem2`,
`opt_elem3` that exists, its found values sorted case-insensitively and
joined with `-`, collects the non-sentinel results, sorts those
case-insensitively and joins with `-`; an empty result is `"clear"`, and for
the found values `["F770W", "f560w"]` the fragment is `"f560w-F770W"`
(case-insensitive ascending sort, original casing kept in the join). -/
theorem get_opt_element_characterization :
    (∀ constraints : Constraints,
      get_opt_element constraints = opt_element_from_spec constraints)
    ∧ get_opt_element [("opt_elem", AttrConstraint.mk none ["F770W", "f560w"])]
        = "f560w-F770W"
    ∧ get_opt_element [] = "clear" :=
  ⟨get_opt_element_eq_from_spec, by decide, by decide⟩

/-- A successful association-list lookup yields one of the stored values. -/
theorem lookup_mem_map_snd {β : Type} (l : List (String × β)) (k : String) (v : β)
    (h : l.lookup k = some v) : v ∈ l.map Prod.snd := by
  induction l with
  | nil => simp [List.lookup] at h
  | cons a t ih =>
    cases a with
    | mk ka vb =>
      simp only [List.lookup] at h
      cases hk : k == ka with
      | true =>
        rw [hk] at h
        simp only [Option.some.injEq] at h
        simp [← h]
      | false =>
        rw [hk] at h
        simp only [List.map_cons, List.mem_cons]
        exact Or.inr (ih h)

/-- No association exposure type in `EXPTYPE_MAP` is `"science"`. -/
theorem exptype_map_values_ne_science : ∀ v ∈ EXPTYPE_MAP.map Prod.snd, v ≠ "science" := by
  decide

/-- The first-match scan over `SPECIAL_EXPTYPES` is the spec-side if-chain
over psf, imprint, background. -/
theorem special_exptypes_find_eq_override (item : Item) :
    (match SPECIAL_EXPTYPES.find? (fun sp => (item_getattr item sp.2).isSome) with
     | some sp => some sp.1
     | none => some "science") = some (science_special_override item) := by
  unfold SPECIAL_EXPTYPES science_special_override
  cases h1 : (item_getattr item ["is_psf"]).isSome <;>
    cases h2 : (item_getattr item ["is_imprt"]).isSome <;>
      cases h3 : (item_getattr item ["bkgdtarg"]).isSome <;>
        simp [List.find?, h1, h2, h3]

/-- With default `"science"`, a present `exp_type` always yields the mapped
type, with the special override applied on the `"science"` default. -/
theorem get_exposure_type_some_eq (item : Item) (exp_type : String)
    (h : item.lookup "exp_type" = some exp_type) :
    get_exposure_type item (some "science")
      = some (
        let mapped := (EXPTYPE_MAP.lookup exp_type).getD "science"
        if mapped = "science" then science_special_override item else mapped) := by
  unfold get_exposure_type
  simp only [h]
  cases hm : EXPTYPE_MAP.lookup exp_type with
  | none =>
    simp only [Option.none_or, Option.getD_none, if_true]
    exact special_exptypes_find_eq_override item
  | some mapped =>
    have hns : mapped ≠ "science" :=
      exptype_map_values_ne_science mapped (lookup_mem_map_snd EXPTYPE_MAP exp_type mapped hm)
    simp only [Option.or_some, Option.getD_some]
    rw [if_neg hns, if_neg hns]

/-- C6: with default `"science"`, `get_exposure_type` fails (`LookupError`,
modelled as `none`) exactly when the item lacks `exp_type`; otherwise it
returns the `EXPTYPE_MAP` image of the exposure type (default `"science"`
when unmapped), and a `"science"` result is overridden by the first of psf,
imprint, background whose gating attribute resolves to a non-sentinel
value. -/
theorem get_exposure_type_science_default :
    ∀ item : Item,
      ((get_exposure_type item (some "science")).isNone ↔ (item.lookup "exp_type").isNone)
      ∧ ∀ exp_type, item.lookup "exp_type" = some exp_type →
          get_exposure_type item (some "science")
            = some (
              let mapped := (EXPTYPE_MAP.lookup exp_type).getD "science"
              if mapped = "science" then science_special_override item else mapped) := by
  intro item
  constructor
  · cases h : item.lookup "exp_type" with
    | none =>
      unfold get_exposure_type
      rw [h]
    | some exp_type =>
      rw [get_exposure_type_some_eq item exp_type h]
      simp
  · exact fun exp_type h => get_exposure_type_some_eq item exp_type h

/-- Witness for C6: an unmapped science exposure with `is_imprt` set resolves
to the `imprint` special type. -/
theorem get_exposure_type_science_default_witness :
    get_exposure_type [("exp_type", "nrc_image"), ("is_imprt", "t")] (some "science")
      = some "imprint" :=
  ((get_exposure_type_science_default [("exp_type", "nrc_image"), ("is_imprt", "t")]).2
    "nrc_image" (by decide)).trans (by decide)

/-- Running a reset-free trace from any counter value assigns exactly the
consecutive numbers starting at that value, one per successful create. -/
theorem runSeq_no_reset :
    ∀ (ops : List SeqOp), SeqOp.reset ∉ ops →
      ∀ (counter : Nat) (assigned : List Nat),
        ops.foldl seqStep (counter, assigned)
          = (counter + ops.count SeqOp.createOk,
             assigned ++ List.range' counter (ops.count SeqOp.createOk)) := by
  intro ops
  induction ops with
  | nil => intro _ c out; simp
  | cons op rest ih =>
    intro h c out
    have hop : op ≠ SeqOp.reset := fun he => h (he ▸ List.mem_cons_self op rest)
    have hrest : SeqOp.reset ∉ rest := fun hr => h (List.mem_cons_of_mem op hr)
    cases op with
    | reset => exact absurd rfl hop
    | createOk =>
      rw [List.foldl_cons]
      show rest.foldl seqStep (c + 1, out ++ [c]) = _
      rw [ih hrest (c + 1) (out ++ [c]), List.count_cons_self, List.range'_succ,
        List.append_assoc, List.singleton_append]
      simp only [Prod.mk.injEq, and_true]
      omega
    | createFail =>
      rw [List.foldl_cons]
      show rest.foldl seqStep (c, out) = _
      rw [ih hrest c out, List.count_cons_of_ne]
      decide

/-- C8: within one reset-free lifetime of a rule class, the sequence numbers
handed out by successful `create` calls are exactly 1, 2, ... in order
(unique, strictly increasing, starting at 1; failed creates draw nothing),
and only an explicit `reset_sequence` restarts the counter at 1. -/
theorem create_sequence_invariant :
    (∀ ops : List SeqOp, SeqOp.reset ∉ ops →
        (runSeq 1 ops).2 = List.range' 1 (ops.count SeqOp.createOk)
        ∧ List.Pairwise (· < ·) (runSeq 1 ops).2)
    ∧ ∀ (counter : Nat) (ops : List SeqOp),
        runSeq counter (SeqOp.reset :: ops) = runSeq 1 ops := by
  constructor
  · intro ops h
    have he : (runSeq 1 ops).2 = List.range' 1 (ops.count SeqOp.createOk) := by
      unfold runSeq
      rw [runSeq_no_reset ops h 1 []]
      simp
    refine ⟨he, ?_⟩
    rw [he]
    exact List.pairwise_lt_range' 1 _
  · intro counter ops
    rfl

/-- Witness for C8: two successful creates around a failed one receive the
sequence numbers 1 and 2. -/
theorem create_sequence_invariant_witness :
    (runSeq 1 [SeqOp.createOk, SeqOp.createFail, SeqOp.createOk]).2
      = List.range' 1 ([SeqOp.createOk, SeqOp.createFail, SeqOp.createOk].count SeqOp.createOk)
    ∧ List.Pairwise (· < ·)
        (runSeq 1 [SeqOp.createOk, SeqOp.createFail, SeqOp.createOk]).2 :=
  create_sequence_invariant.1 [SeqOp.createOk, SeqOp.createFail, SeqOp.createOk] (by decide)

/-- Filtering successively against each element of a list is one filter
against all of them. -/
theorem foldl_filter_ne {α : Type} [DecidableEq α] :
    ∀ (cl dl : List (Asn α)),
      cl.foldl (fun dl c => dl.filter (fun d => d.content != c.content)) dl
        = dl.filter (fun d => cl.all (fun c => d.content != c.content)) := by
  intro cl
  induction cl with
  | nil => intro dl; simp
  | cons c cl ih =>
    intro dl
    rw [List.foldl_cons, ih, List.filter_filter]
    apply List.filter_congr
    intro d _
    rw [List.all_cons, Bool.and_comm]

/-- Shape of a successful `filter_discovered_only` run: the discovered
associations not structurally equal to any candidate, in order, then the
candidates when kept. -/
theorem filter_discovered_only_some {α : Type} [DecidableEq α]
    (associations : List (Asn α)) (discover_ruleset candidate_ruleset : String)
    (keep_candidates : Bool)
    (h : associations.all (fun a =>
      a.registry == candidate_ruleset || a.registry == discover_ruleset) = true) :
    filter_discovered_only associations discover_ruleset candidate_ruleset keep_candidates
      = some
        (((associations.filter (fun a => a.registry == discover_ruleset)).filter
            (fun d => (associations.filter (fun a => a.registry == candidate_ruleset)).all
              (fun c => d.content != c.content)))
          ++ if keep_candidates then
               associations.filter (fun a => a.registry == candidate_ruleset)
             else []) := by
  unfold filter_discovered_only
  rw [if_pos h]
  simp only [foldl_filter_ne]
  cases keep_candidates <;> simp

/-- C3: when every input association carries one of the two ruleset names,
`filter_discovered_only` returns exactly the discovered associations that
are structurally equal to no candidate association, in their original
relative order, followed by all candidate associations when
`keep_candidates` is true and by none of them when it is false. -/
theorem filter_discovered_only_partition {α : Type} [DecidableEq α]
    (associations : List (Asn α)) (discover_ruleset candidate_ruleset : String)
    (keep_candidates : Bool)
    (h : ∀ asn ∈ associations,
      asn.registry = discover_ruleset ∨ asn.registry = candidate_ruleset) :
    filter_discovered_only associations discover_ruleset candidate_ruleset keep_candidates
      = some
        (((associations.filter (fun a => a.registry == discover_ruleset)).filter
            (fun d => (associations.filter (fun a => a.registry == candidate_ruleset)).all
              (fun c => d.content != c.content)))
          ++ if keep_candidates then
               associations.filter (fun a => a.registry == candidate_ruleset)
             else []) := by
  apply filter_discovered_only_some
  rw [List.all_eq_true]
  intro a ha
  rcases h a ha with h1 | h1 <;> simp [h1]

/-- Witness for C3: one candidate association removes its structurally equal
discovered twin and is itself kept. -/
theorem filter_discovered_only_partition_witness :
    filter_discovered_only
      [Asn.mk "discover" (1 : Nat), Asn.mk "candidate" 1, Asn.mk "discover" 2]
      "discover" "candidate" true
      = some [Asn.mk "discover" 2, Asn.mk "candidate" 1] :=
  (filter_discovered_only_partition
    [Asn.mk "discover" (1 : Nat), Asn.mk "candidate" 1, Asn.mk "discover" 2]
    "discover" "candidate" true (by decide)).trans (by decide)

/-- C10: an input association whose registry name is neither the discover nor
the candidate ruleset name makes `filter_discovered_only` raise `KeyError`
(modelled as `none`): the partition only provides buckets for those two
names. -/
theorem filter_discovered_only_foreign_registry {α : Type} [DecidableEq α]
    (associations : List (Asn α)) (discover_ruleset candidate_ruleset : String)
    (keep_candidates : Bool) (asn : Asn α)
    (hmem : asn ∈ associations)
    (h1 : asn.registry ≠ discover_ruleset) (h2 : asn.registry ≠ candidate_ruleset) :
    filter_discovered_only associations discover_ruleset candidate_ruleset keep_candidates
      = none := by
  unfold filter_discovered_only
  rw [if_neg]
  intro hall
  rw [List.all_eq_true] at hall
  have hb := hall asn hmem
  simp only [Bool.or_eq_true, beq_iff_eq] at hb
  rcases hb with hb | hb
  · exact h2 hb
  · exact h1 hb

/-- Witness for C10: one association from an unknown ruleset fails the run. -/
theorem filter_discovered_only_foreign_registry_witness :
    filter_discovered_only [Asn.mk "other" (1 : Nat)] "discover" "candidate" true = none :=
  filter_discovered_only_foreign_registry [Asn.mk "other" (1 : Nat)] "discover" "candidate"
    true (Asn.mk "other" 1) (by decide) (by decide) (by decide)

/-- Filtering a list for elements unequal in content to every element of
that same list leaves nothing (each element is equal to itself). -/
theorem filter_all_ne_self {α : Type} [DecidableEq α] (L : List (Asn α)) :
    L.filter (fun d => L.all (fun c => d.content != c.content)) = [] := by
  rw [List.filter_eq_nil_iff]
  intro d hd hall
  rw [List.all_eq_true] at hall
  have hdd := hall d hd
  simp at hdd

/-- Filtering twice with the same predicate is filtering once. -/
theorem filter_filter_self {α : Type} (l : List α) (p : α → Bool) :
    (l.filter p).filter p = l.filter p := by
  rw [List.filter_filter]
  apply List.filter_congr
  intro a _
  rw [Bool.and_self]

/-- Members of a registry-name filter carry that registry name. -/
theorem mem_filter_registry {α : Type} (l : List (Asn α)) (r : String) (a : Asn α)
    (ha : a ∈ l.filter (fun x => x.registry == r)) : a.registry = r :=
  eq_of_beq (List.mem_filter.mp ha).2

/-- A list whose members all carry one registry name loses everything when
filtered for a different name. -/
theorem filter_registry_of_all {α : Type} (l : List (Asn α)) (r1 r2 : String)
    (hmem : ∀ a ∈ l, a.registry = r1) (hne : r1 ≠ r2) :
    l.filter (fun x => x.registry == r2) = [] := by
  rw [List.filter_eq_nil_iff]
  intro a ha hbeq
  exact hne ((hmem a ha) ▸ eq_of_beq hbeq)

/-- A list whose members all carry one registry name survives the filter for
that name unchanged. -/
theorem filter_registry_self_of_all {α : Type} (l : List (Asn α)) (r : String)
    (hmem : ∀ a ∈ l, a.registry = r) :
    l.filter (fun x => x.registry == r) = l := by
  rw [List.filter_eq_self]
  intro a ha
  simp [hmem a ha]

/-- C4: `filter_discovered_only` is idempotent: rerunning it on its own
output, with the same ruleset names and the same `keep_candidates` flag,
returns that output unchanged. -/
theorem filter_discovered_only_idempotent {α : Type} [DecidableEq α]
    (associations : List (Asn α)) (discover_ruleset candidate_ruleset : String)
    (keep_candidates : Bool) (out : List (Asn α))
    (h : filter_discovered_only associations discover_ruleset candidate_ruleset
      keep_candidates = some out) :
    filter_discovered_only out discover_ruleset candidate_ruleset keep_candidates
      = some out := by
  by_cases hall : associations.all (fun a =>
      a.registry == candidate_ruleset || a.registry == discover_ruleset) = true
  case neg =>
    unfold filter_discovered_only at h
    rw [if_neg hall] at h
    simp at h
  case pos =>
  rw [filter_discovered_only_some associations discover_ruleset candidate_ruleset
    keep_candidates hall] at h
  injection h with h
  subst h
  have hD'r : ∀ a ∈ (associations.filter
      (fun a => a.registry == discover_ruleset)).filter
        (fun d => (associations.filter (fun a => a.registry == candidate_ruleset)).all
          (fun c => d.content != c.content)),
      a.registry = discover_ruleset :=
    fun a ha => mem_filter_registry associations discover_ruleset a
      (List.mem_of_mem_filter ha)
  have hCr : ∀ a ∈ associations.filter (fun a => a.registry == candidate_ruleset),
      a.registry = candidate_ruleset :=
    fun a ha => mem_filter_registry associations candidate_ruleset a ha
  by_cases hdc : discover_ruleset = candidate_ruleset
  case pos =>
    subst hdc
    rw [filter_all_ne_self, List.nil_append]
    cases keep_candidates with
    | false => simp [filter_discovered_only]
    | true =>
      simp only [if_true]
      rw [filter_discovered_only_some
        (associations.filter (fun a => a.registry == discover_ruleset))
        discover_ruleset discover_ruleset true
        (by
          rw [List.all_eq_true]
          intro a ha
          simp [hCr a ha])]
      rw [filter_registry_self_of_all _ _ hCr, filter_all_ne_self, List.nil_append,
        if_pos rfl]
  case neg =>
    cases keep_candidates with
    | false =>
      simp only [Bool.false_eq_true, if_false, List.append_nil]
      rw [filter_discovered_only_some _ discover_ruleset candidate_ruleset false
        (by
          rw [List.all_eq_true]
          intro a ha
          simp [hD'r a ha])]
      rw [filter_registry_of_all _ discover_ruleset candidate_ruleset hD'r hdc,
        filter_registry_self_of_all _ discover_ruleset hD'r]
      have hvac : ((associations.filter
          (fun a => a.registry == discover_ruleset)).filter
            (fun d => (associations.filter
              (fun a => a.registry == candidate_ruleset)).all
                (fun c => d.content != c.content))).filter
          (fun d => (List.nil : List (Asn α)).all (fun c => d.content != c.content))
          = (associations.filter (fun a => a.registry == discover_ruleset)).filter
              (fun d => (associations.filter
                (fun a => a.registry == candidate_ruleset)).all
                  (fun c => d.content != c.content)) := by
        rw [List.filter_eq_self]
        intro a _
        rfl
      rw [hvac]
      simp
    | true =>
      simp only [if_true]
      have hall2 : (((associations.filter
          (fun a => a.registry == discover_ruleset)).filter
            (fun d => (associations.filter
              (fun a => a.registry == candidate_ruleset)).all
                (fun c => d.content != c.content)))
          ++ associations.filter (fun a => a.registry == candidate_ruleset)).all
          (fun a => a.registry == candidate_ruleset
            || a.registry == discover_ruleset) = true := by
        rw [List.all_eq_true]
        intro a ha
        rcases List.mem_append.mp ha with h' | h'
        · simp [hD'r a h']
        · simp [hCr a h']
      rw [filter_discovered_only_some _ discover_ruleset candidate_ruleset true hall2]
      rw [List.filter_append, List.filter_append]
      rw [filter_registry_of_all _ discover_ruleset candidate_ruleset hD'r hdc,
        filter_registry_self_of_all _ candidate_ruleset hCr,
        filter_registry_self_of_all _ discover_ruleset hD'r,
        filter_registry_of_all _ candidate_ruleset discover_ruleset hCr (Ne.symm hdc),
        List.nil_append, List.append_nil]
      rw [filter_filter_self]
      rw [if_pos rfl]

/-- Witness for C4: rerunning the dedup filter on a first run's output
returns that output unchanged. -/
theorem filter_discovered_only_idempotent_witness :
    filter_discovered_only [Asn.mk "discover" (2 : Nat), Asn.mk "candidate" 1]
      "discover" "candidate" true
      = some [Asn.mk "discover" 2, Asn.mk "candidate" 1] :=
  filter_discovered_only_idempotent
    [Asn.mk "discover" (1 : Nat), Asn.mk "candidate" 1, Asn.mk "discover" 2]
    "discover" "candidate" true
    [Asn.mk "discover" 2, Asn.mk "candidate" 1] (by decide)

end JwstAssociations
